import Mathlib

/-!
Verification of the room-mutation engine of a federated messaging server
(`synapse/handlers/room.py`): the message/feedback send pipeline, the room
path-data rule table, room creation with bounded id-generation retry, and
the membership state machine including the remote invite-join dance.

Handlers are embedded as pure functions from an environment (the external
collaborators: storage reads, authorization, the home-server identity) to a
trace of observable actions plus an `Except` result.  The per-room lock is
modelled as explicit `acquire`/`release` actions in the trace together with
an interleaving semantics over tagged traces.
-/

namespace Synapse

/-! Membership state constants (from `synapse/api/constants.py`, a module of
this repository outside the packaged source; values are the wire strings used
throughout `room.py`). -/

namespace Membership

def INVITE : String := "invite"

def JOIN : String := "join"

def LEAVE : String := "leave"

end Membership

/-- Modelled from the spec: event type tags of the event classes imported from
`synapse/api/events/room.py` (not under the packaged source).  Only their
distinctness per event class matters to the handlers. -/
def RoomTopicEventType : String := "sy.room.topic"

/-- Modelled from the spec: type tag of `MessageEvent`. -/
def MessageEventType : String := "sy.room.message"

/-- Modelled from the spec: type tag of `RoomMemberEvent`. -/
def RoomMemberEventType : String := "sy.room.member"

/-- Modelled from the spec: type tag of `InviteJoinEvent`, the join-request
event used by the remote invite-join dance. -/
def InviteJoinEventType : String := "sy.room.invite_join"

/-- The fields of `event.content` that `room.py` reads or writes. -/
structure Content where
  membership : Option String := none
  msgtype : Option String := none
  body : Option String := none
  hsob_ts : Option Nat := none
deriving DecidableEq

/-- An event envelope: the fields of the event objects that `room.py`
touches.  `membership` is the attribute `event.membership` set on
`RoomMemberEvent` (distinct from `event.content["membership"]`). -/
structure Event where
  etype : String
  room_id : String
  user_id : String
  target_user_id : String := ""
  membership : Option String := none
  content : Content := {}
  msg_id : String := ""
  destinations : List String := []
deriving DecidableEq

/-- A stored room row: `room.py` reads only the `is_public` flag and
truthiness of the row. -/
structure Room where
  is_public : Bool
deriving DecidableEq

/-- A stored membership row for a (room, user) pair: `room.py` reads the
current membership state and the `sender` who caused it. -/
structure RoomMemberRow where
  membership : String
  sender : String
deriving DecidableEq

/-- Errors raised by the handlers: `authError` for `auth.check` failures,
`roomError c m` for `RoomError(c, m)`, `storeError c m` for `StoreError`
(including the duplicate-id collision raised by `store_room`). -/
inductive Err where
  | authError
  | roomError (code : Nat) (msg : String)
  | storeError (code : Nat) (msg : String)
deriving DecidableEq

/-- Observable actions of a handler run, in program order.  Lock
acquisition/release are explicit so that the per-room mutual-exclusion
discipline can be stated over traces; storage writes, federation sends,
remote state fetches and local notification appear with their arguments. -/
inductive Act where
  | stampEv (room : String)
  | acquire (room : String)
  | release (room : String)
  | authCheck (room : String) (ok : Bool)
  | persistEvent (ev : Event)
  | getJoinedHosts (room : String)
  | federationSend (ev : Event)
  | notify (ev : Event) (store_id : Nat)
  | storeRoomMember (room : String) (user : String) (sender : String) (membership : String)
  | getRoomMember (user : String) (room : String)
  | getRoom (room : String)
  | storeRoomCall (room : String) (creator : String) (is_public : Bool) (ok : Bool)
  | stateHandle (ev : Event)
  | getStateForRoom (host : String) (room : String)
deriving DecidableEq

/-- The environment of external collaborators (spec section 6): storage read
accessors as pure functions of the current store snapshot, the authorization
predicate, the home-server identity and the user-id domain parser
(`UserID.from_string(u, hs).domain`, from `synapse/types.py`), the clock, the
store-assigned sequence ids, the duplicate-id acceptance predicate of
`store_room`, and the successive outputs of `stringutils.random_string`. -/
structure Env where
  hostname : String
  domain : String → String
  now : Nat
  authOk : Event → Bool
  get_room_member : String → String → Option RoomMemberRow
  get_room : String → Option Room
  get_joined_hosts_for_room : String → List String
  get_path_data : String → Option String
  persist_id : Nat
  store_member_id : Nat
  storeRoomOk : String → Bool
  gen : Nat → String

/-- Analogue of `UserID.from_string(u, self.hs).is_mine`: the user's domain
equals this server's hostname. -/
def Env.is_mine (env : Env) (u : String) : Bool :=
  env.domain u == env.hostname

/-- The `stamp(event)` helper: overwrite `event.content["hsob_ts"]` with the
current server timestamp. -/
def stamp (now : Nat) (e : Event) : Event :=
  { e with content := { e.content with hsob_ts := some now } }

/-- Embedding of `MessageHandler.send_message`: optional stamping, acquire
the room lock, optional authorization, persist, compute destinations from the
joined hosts, forward to federation and notify locally, all before releasing
the lock. -/
def send_message (env : Env) (event : Event) (suppress_auth : Bool) (stamp_event : Bool) :
    List Act × Except Err Unit :=
  let ev := if stamp_event then stamp env.now event else event
  let pre := (if stamp_event then [Act.stampEv ev.room_id] else []) ++ [Act.acquire ev.room_id]
  if !suppress_auth && !env.authOk ev then
    (pre ++ [Act.authCheck ev.room_id false, Act.release ev.room_id], .error .authError)
  else
    let authTr := if suppress_auth then [] else [Act.authCheck ev.room_id true]
    let ev2 := { ev with destinations := env.get_joined_hosts_for_room ev.room_id }
    (pre ++ authTr ++
      [Act.persistEvent ev, Act.getJoinedHosts ev.room_id,
       Act.federationSend ev2, Act.notify ev2 env.persist_id,
       Act.release ev.room_id],
     .ok ())

/-- Embedding of `MessageHandler.send_feedback`: same persist and
destination computation under the lock, but federation forwarding and local
notification happen after the lock is released. -/
def send_feedback (env : Env) (event : Event) (stamp_event : Bool) :
    List Act × Except Err Unit :=
  let ev := if stamp_event then stamp env.now event else event
  let pre := (if stamp_event then [Act.stampEv ev.room_id] else []) ++ [Act.acquire ev.room_id]
  if !env.authOk ev then
    (pre ++ [Act.authCheck ev.room_id false, Act.release ev.room_id], .error .authError)
  else
    let ev2 := { ev with destinations := env.get_joined_hosts_for_room ev.room_id }
    (pre ++
      [Act.authCheck ev.room_id true,
       Act.persistEvent ev, Act.getJoinedHosts ev.room_id,
       Act.release ev.room_id,
       Act.federationSend ev2, Act.notify ev2 env.persist_id],
     .ok ())

/-- Python membership test `member_state not in rules`, negated: a `None`
state is in no list of membership strings. -/
def memberStateIn (ms : Option String) (rules : List String) : Bool :=
  match ms with
  | some m => rules.contains m
  | none => false

/-- The private-room rule list actually used by `get_room_path_data`: a
room-topic read always relaxes it to `{invite, join}`. -/
def effectivePrivateRules (event_type : String) (private_room_rules : List String) :
    List String :=
  if event_type = RoomTopicEventType then [Membership.INVITE, Membership.JOIN]
  else private_room_rules

/-- Embedding of `MessageHandler.get_room_path_data`: room-topic override of
the private rules, room-existence check, then the membership-rule table
(empty rule list means no restriction), then the stored path data. -/
def get_room_path_data (env : Env) (user_id room_id path event_type : String)
    (public_room_rules : List String) (private_room_rules : List String) :
    Except Err (Option String) :=
  let privRules := effectivePrivateRules event_type private_room_rules
  match env.get_room room_id with
  | none => .error (.roomError 403 "Room does not exist.")
  | some room =>
    let member := env.get_room_member user_id room_id
    let member_state : Option String := member.map (·.membership)
    if room.is_public && !public_room_rules.isEmpty then
      if memberStateIn member_state public_room_rules then .ok (env.get_path_data path)
      else .error (.roomError 403 "Member does not meet public room rules.")
    else if !room.is_public && !privRules.isEmpty then
      if memberStateIn member_state privRules then .ok (env.get_path_data path)
      else .error (.roomError 403 "Member does not meet private room rules.")
    else .ok (env.get_path_data path)

/-- The text body synthesized by `RoomMemberHandler._inject_membership_msg`
for the three recognized membership values; `none` for any other value
(which raises `RoomError(500, ...)` before any message is built). -/
def broadcastBody (source target membership : String) : Option String :=
  if membership = Membership.INVITE then
    some (source ++ " invited " ++ target ++ " to the room.")
  else if membership = Membership.JOIN then
    some (target ++ " joined the room.")
  else if membership = Membership.LEAVE then
    some (target ++ " left the room.")
  else none

/-- The system message event built by `_inject_membership_msg`. -/
def broadcastEvent (env : Env) (room_id body : String) : Event :=
  { etype := MessageEventType
    room_id := room_id
    user_id := "_homeserver_"
    msg_id := "m" ++ toString env.now
    content := { msgtype := some "sy.text", body := some body } }

/-- Embedding of `RoomMemberHandler._inject_membership_msg`: synthesize the
system-authored membership message and send it through `send_message` with
authorization suppressed; an unrecognized membership value is fatal. -/
def inject_membership_msg (env : Env) (room_id source target membership : String) :
    List Act × Except Err Unit :=
  match broadcastBody source target membership with
  | none => ([], .error (.roomError 500 ("Unknown membership value " ++ membership)))
  | some body => send_message env (broadcastEvent env room_id body) true true

/-- Embedding of the inner `_do_membership_update` of `change_membership`:
store the membership row (membership taken from `event.content`), read the
joined hosts, append the target user's home server for an invite or a join,
deduplicate (`list(set(...))`), and return the updated event together with
the store-assigned id and the trace of storage calls. -/
def do_membership_update (env : Env) (event : Event) : List Act × Nat × Event :=
  let m := event.content.membership.getD ""
  let hosts := env.get_joined_hosts_for_room event.room_id
  let hosts1 := if m = Membership.INVITE then hosts ++ [env.domain event.target_user_id]
    else hosts
  let hosts2 := if m = Membership.JOIN then hosts1 ++ [env.domain event.target_user_id]
    else hosts1
  ([Act.storeRoomMember event.room_id event.target_user_id event.user_id m,
    Act.getJoinedHosts event.room_id],
   env.store_member_id,
   { event with destinations := hosts2.dedup })

/-- The remote invite-join dance condition of `change_membership`: the prior
membership of (room, target user) was an invite, the inviter's home server is
not this server, and this server has no local record of the room. -/
def danceCond (env : Env) (event : Event) : Bool :=
  match env.get_room_member event.target_user_id event.room_id with
  | some p =>
    p.membership = Membership.INVITE &&
      (!env.is_mine p.sender && (env.get_room event.room_id).isNone)
  | none => false

/-- The join-request event constructed by the dance: an `InviteJoinEvent`
targeted at the inviter, destined solely to the inviter's home server. -/
def danceEvent (env : Env) (event : Event) (inviter : String) : Event :=
  { etype := InviteJoinEventType
    room_id := event.room_id
    user_id := event.user_id
    target_user_id := inviter
    destinations := [env.domain inviter] }

/-- Trace and result of the shared mutation sequence of `change_membership`
(state reconciliation, membership persist, destination computation under the
lock; federation forward and local notification after release). -/
def membershipCommit (env : Env) (event : Event) (lockedPre : List Act) :
    List Act × Except Err Unit :=
  let upd := do_membership_update env event
  (lockedPre ++ [Act.stateHandle event] ++ upd.1 ++
    [Act.release event.room_id, Act.federationSend upd.2.2, Act.notify upd.2.2 upd.2.1],
   .ok ())

/-- The body of `RoomMemberHandler.change_membership` before the optional
broadcast: the JOIN branch decides between the ordinary join and the remote
invite-join dance while holding the room lock; the non-JOIN branch runs the
shared mutation sequence. -/
def change_membership_main (env : Env) (event : Event) (do_auth : Bool) :
    List Act × Except Err Unit :=
  let acq := [Act.acquire event.room_id]
  if event.membership = some Membership.JOIN then
      if do_auth && !env.authOk event then
        (acq ++ [Act.authCheck event.room_id false, Act.release event.room_id],
         .error .authError)
      else
        let authTr := if do_auth then [Act.authCheck event.room_id true] else []
        let prevTr := [Act.getRoomMember event.target_user_id event.room_id]
        match env.get_room_member event.target_user_id event.room_id with
        | some p =>
          if p.membership = Membership.INVITE then
            let roomTr := [Act.getRoom event.room_id]
            if !env.is_mine p.sender && (env.get_room event.room_id).isNone then
              let lockPart := acq ++ authTr ++ prevTr ++ roomTr ++ [Act.release event.room_id]
              if env.storeRoomOk event.room_id then
                (lockPart ++
                  [Act.storeRoomCall event.room_id p.sender false true,
                   Act.federationSend (danceEvent env event p.sender),
                   Act.getStateForRoom (env.domain p.sender) event.room_id],
                 .ok ())
              else
                (lockPart ++ [Act.storeRoomCall event.room_id p.sender false false],
                 .error (.storeError 409 "Room ID in use"))
            else
              membershipCommit env event (acq ++ authTr ++ prevTr ++ roomTr)
          else
            membershipCommit env event (acq ++ authTr ++ prevTr)
        | none =>
          membershipCommit env event (acq ++ authTr ++ prevTr)
    else
      if do_auth && !env.authOk event then
        (acq ++ [Act.authCheck event.room_id false, Act.release event.room_id],
         .error .authError)
      else
        let authTr := if do_auth then [Act.authCheck event.room_id true] else []
        membershipCommit env event (acq ++ authTr)

/-- Embedding of `RoomMemberHandler.change_membership`: the main membership
transition, then, on success only, the optional broadcast of a system
membership message (which re-enters the lock through `send_message`). -/
def change_membership (env : Env) (event : Event) (broadcast_msg : Bool) (do_auth : Bool) :
    List Act × Except Err Unit :=
  let main := change_membership_main env event do_auth
  match main.2 with
  | .error _ => main
  | .ok _ =>
    if broadcast_msg then
      let bc := inject_membership_msg env event.room_id event.user_id event.target_user_id
        (event.content.membership.getD "")
      (main.1 ++ bc.1, bc.2)
    else main

/-- The id-generation retry loop of `create_room`: while fewer than five
attempts have been made, generate a fresh id and try to store the room,
counting a collision as a failed attempt; with the budget exhausted, raise
`StoreError(500, ...)`. -/
def gen_room_loop (env : Env) (user_id : String) (is_public : Bool) :
    Nat → Nat → List Act × Except Err String
  | _, 0 => ([], .error (.storeError 500 "Couldn\x27t generate a room ID."))
  | attempt, r + 1 =>
    let gid := env.gen attempt
    if env.storeRoomOk gid then
      ([Act.storeRoomCall gid user_id is_public true], .ok gid)
    else
      let rest := gen_room_loop env user_id is_public (attempt + 1) r
      (Act.storeRoomCall gid user_id is_public false :: rest.1, rest.2)

/-- The creator's initial JOIN membership event synthesized by
`create_room`. -/
def creatorJoinEvent (user_id room_id : String) : Event :=
  { etype := RoomMemberEventType
    room_id := room_id
    user_id := user_id
    target_user_id := user_id
    membership := some Membership.JOIN
    content := { membership := some Membership.JOIN } }

/-- Embedding of `RoomCreationHandler.create_room`: an explicit id is stored
once with collisions propagated as-is; an absent id runs the bounded
generation loop; on success the creator's JOIN is driven through
`change_membership` with broadcast enabled and authorization bypassed, and
the final room id is returned. -/
def create_room (env : Env) (user_id : String) (room_id : Option String)
    (config_visibility_public : Bool) : List Act × Except Err String :=
  let stored : List Act × Except Err String :=
    match room_id with
    | some rid =>
      if env.storeRoomOk rid then
        ([Act.storeRoomCall rid user_id config_visibility_public true], .ok rid)
      else
        ([Act.storeRoomCall rid user_id config_visibility_public false],
         .error (.storeError 409 "Room ID in use"))
    | none => gen_room_loop env user_id config_visibility_public 0 5
  match stored.2 with
  | .error e => (stored.1, .error e)
  | .ok rid =>
    let joined := change_membership env (creatorJoinEvent user_id rid) true false
    (stored.1 ++ joined.1,
     match joined.2 with
     | .error e => .error e
     | .ok _ => .ok rid)

/-! Lock semantics.  Modelled from the spec: the `RoomLock` implementation
(`synapse/util/lockutils.py`) is a module of this repository outside the
packaged source; spec section 4.1 gives its contract — a scoped acquisition
keyed by room id, under which no other acquisition for the same room may
proceed until release, while distinct rooms never block each other. -/

/-- True for the lock acquisition/release actions of a trace. -/
def isLockOp : Act → Bool
  | .acquire _ => true
  | .release _ => true
  | _ => false

/-- A lock state maps each room id to the tag of the thread currently
holding its lock, if any. -/
def LockState : Type := String → Option Bool

/-- The empty lock state: no lock held. -/
def noLock : LockState := fun _ => none

/-- One scheduler step of thread `t` performing action `a`: acquiring a held
lock or releasing a lock not held by `t` is impossible (the thread would
suspend, so no valid schedule takes the step); every other action leaves the
lock state unchanged. -/
def lockStep (s : LockState) (t : Bool) (a : Act) : Option LockState :=
  match a with
  | .acquire r =>
    match s r with
    | none => some (Function.update s r (some t))
    | some _ => none
  | .release r => if s r = some t then some (Function.update s r none) else none
  | _ => some s

/-- Run a tagged trace through the lock semantics from state `s`. -/
def lockRun (s : LockState) : List (Bool × Act) → Option LockState
  | [] => some s
  | (t, a) :: rest =>
    match lockStep s t a with
    | none => none
    | some s2 => lockRun s2 rest

/-- A tagged trace is a valid schedule when it runs to completion from the
empty lock state. -/
def lockValid (zs : List (Bool × Act)) : Prop :=
  (lockRun noLock zs).isSome = true

/-- An interleaving of two action traces into one tagged trace, preserving
each trace's order. -/
inductive Interleaving : List Act → List Act → List (Bool × Act) → Prop
  | nil : Interleaving [] [] []
  | left {x : Act} {xs ys : List Act} {zs : List (Bool × Act)} :
      Interleaving xs ys zs → Interleaving (x :: xs) ys ((true, x) :: zs)
  | right {y : Act} {xs ys : List Act} {zs : List (Bool × Act)} :
      Interleaving xs ys zs → Interleaving xs (y :: ys) ((false, y) :: zs)

/-- Position `i` of the tagged trace lies inside thread `t`'s critical
section for room `R`: strictly after `t`'s acquisition of `R` and strictly
before `t`'s release of `R`. -/
def critAt (t : Bool) (R : String) (zs : List (Bool × Act)) (i : Nat) : Prop :=
  ∃ j k, j < i ∧ i < k ∧
    zs[j]? = some (t, Act.acquire R) ∧ zs[k]? = some (t, Act.release R)

/-- The two threads' critical sections for room `R` do not interleave: one
lies entirely before the other. -/
def NoCriticalInterleave (R : String) (zs : List (Bool × Act)) : Prop :=
  (∀ i j, critAt true R zs i → critAt false R zs j → i < j) ∨
  (∀ i j, critAt false R zs i → critAt true R zs j → i < j)

/-- A trace produced by one invocation of `send_message`, `send_feedback` or
`change_membership` (without the broadcast re-entry) targeting room `R`. -/
def HandlerTrace (R : String) (xs : List Act) : Prop :=
  (∃ env ev sa se, ev.room_id = R ∧ xs = (send_message env ev sa se).1) ∨
  (∃ env ev se, ev.room_id = R ∧ xs = (send_feedback env ev se).1) ∨
  (∃ env ev da, ev.room_id = R ∧ xs = (change_membership env ev false da).1)

/-! Generic facts about interleavings and the lock semantics. -/

/-- Running one trace to completion and then the other is one (sequential)
interleaving. -/
theorem interleaving_seq (xs ys : List Act) :
    Interleaving xs ys (xs.map ((true, ·)) ++ ys.map ((false, ·))) := by
  induction xs with
  | nil =>
    induction ys with
    | nil => exact .nil
    | cons y ys ih => exact .right ih
  | cons x xs ih => exact .left ih

/-- Interleavings are preserved by filtering both sides with the same
predicate. -/
theorem Interleaving.filter_congr {p : Act → Bool} :
    ∀ {xs ys : List Act} {zs : List (Bool × Act)}, Interleaving xs ys zs →
      Interleaving (xs.filter p) (ys.filter p) (zs.filter (fun ta => p ta.2)) := by
  intro xs ys zs h
  induction h with
  | nil => exact .nil
  | @left x xs ys zs _ ih =>
    by_cases hp : p x
    · simpa [List.filter_cons, hp] using Interleaving.left ih
    · simpa [List.filter_cons, hp] using ih
  | @right y xs ys zs _ ih =>
    by_cases hp : p y
    · simpa [List.filter_cons, hp] using Interleaving.right ih
    · simpa [List.filter_cons, hp] using ih

/-- Actions other than lock operations leave the lock state unchanged. -/
theorem lockStep_nonop {a : Act} (h : isLockOp a = false) (s : LockState) (t : Bool) :
    lockStep s t a = some s := by
  cases a <;> simp_all [isLockOp, lockStep]

/-- The lock semantics only looks at lock operations: dropping the other
actions does not change the run. -/
theorem lockRun_filter (zs : List (Bool × Act)) :
    ∀ s : LockState, lockRun s (zs.filter (fun ta => isLockOp ta.2)) = lockRun s zs := by
  induction zs with
  | nil => intro s; rfl
  | cons ta rest ih =>
    intro s
    obtain ⟨t, a⟩ := ta
    by_cases h : isLockOp a
    · simp only [List.filter_cons, h, lockRun]
      cases lockStep s t a with
      | none => rfl
      | some s2 => exact ih s2
    · have hstep := lockStep_nonop (by simpa using h) s t
      simp only [List.filter_cons, h, lockRun, hstep]
      exact ih s

/-- There are exactly two valid schedules of two acquire/release brackets for
the same room: one bracket runs entirely before the other. -/
theorem serial_of_valid_merge {R : String} {ws : List (Bool × Act)}
    (h : Interleaving [Act.acquire R, Act.release R] [Act.acquire R, Act.release R] ws)
    (hv : lockValid ws) :
    ws = [(true, Act.acquire R), (true, Act.release R),
          (false, Act.acquire R), (false, Act.release R)] ∨
    ws = [(false, Act.acquire R), (false, Act.release R),
          (true, Act.acquire R), (true, Act.release R)] := by
  cases h with
  | left h1 =>
    cases h1 with
    | left h2 =>
      cases h2 with
      | right h3 =>
        cases h3 with
        | right h4 => cases h4; left; rfl
    | right h2 =>
      cases h2 with
      | left h3 =>
        cases h3 with
        | right h4 =>
          cases h4
          exact absurd hv (by simp [lockValid, lockRun, lockStep, noLock])
      | right h3 =>
        cases h3 with
        | left h4 =>
          cases h4
          exact absurd hv (by simp [lockValid, lockRun, lockStep, noLock])
  | right h1 =>
    cases h1 with
    | left h2 =>
      cases h2 with
      | left h3 =>
        cases h3 with
        | right h4 =>
          cases h4
          exact absurd hv (by simp [lockValid, lockRun, lockStep, noLock])
      | right h3 =>
        cases h3 with
        | left h4 =>
          cases h4
          exact absurd hv (by simp [lockValid, lockRun, lockStep, noLock])
    | right h2 =>
      cases h2 with
      | left h3 =>
        cases h3 with
        | left h4 => cases h4; right; rfl

/-- A value occurring at most once in a list occupies a unique position. -/
theorem getElem?_eq_of_count_le_one {α : Type} [BEq α] [LawfulBEq α] {l : List α} {x : α}
    (hc : l.count x ≤ 1) :
    ∀ {i j : Nat}, l[i]? = some x → l[j]? = some x → i = j := by
  induction l with
  | nil => intro i j hi _; simp at hi
  | cons b l ih =>
    intro i j hi hj
    cases i with
    | zero =>
      cases j with
      | zero => rfl
      | succ j =>
        exfalso
        simp only [List.getElem?_cons_zero, Option.some.injEq] at hi
        simp only [List.getElem?_cons_succ] at hj
        have hmem : x ∈ l := List.getElem?_mem hj
        have h1 : 0 < l.count x := List.count_pos_iff.mpr hmem
        rw [List.count_cons] at hc
        simp [hi] at hc
        omega
    | succ i =>
      cases j with
      | zero =>
        exfalso
        simp only [List.getElem?_cons_zero, Option.some.injEq] at hj
        simp only [List.getElem?_cons_succ] at hi
        have hmem : x ∈ l := List.getElem?_mem hi
        have h1 : 0 < l.count x := List.count_pos_iff.mpr hmem
        rw [List.count_cons] at hc
        simp [hj] at hc
        omega
      | succ j =>
        simp only [List.getElem?_cons_succ] at hi hj
        have hc' : l.count x ≤ 1 := by
          rw [List.count_cons] at hc
          omega
        exact congrArg Nat.succ (ih hc' hi hj)

/-- The element at the seam of a split list. -/
theorem getElem?_at_seam {α : Type} (A : List α) (x : α) (B : List α) :
    (A ++ x :: B)[A.length]? = some x := by
  rw [List.getElem?_append_right le_rfl]
  simp

/-- In a list of the shape `A ++ x :: B ++ y :: C` where `x` and `y` each
occur at most once, every position of `x` precedes every position of `y`. -/
theorem lt_of_split_unique {α : Type} [BEq α] [LawfulBEq α] {l A B C : List α} {x y : α}
    (hl : l = A ++ x :: (B ++ y :: C)) (hcx : l.count x ≤ 1) (hcy : l.count y ≤ 1)
    {i j : Nat} (hi : l[i]? = some x) (hj : l[j]? = some y) : i < j := by
  have hx : l[A.length]? = some x := by
    rw [hl]
    exact getElem?_at_seam A x (B ++ y :: C)
  have hy : l[A.length + 1 + B.length]? = some y := by
    rw [hl]
    have hshape : A ++ x :: (B ++ y :: C) = (A ++ x :: B) ++ y :: C := by simp
    rw [hshape]
    have hlen : (A ++ x :: B).length = A.length + 1 + B.length := by
      simp [List.length_append]
      omega
    rw [← hlen]
    exact getElem?_at_seam (A ++ x :: B) y C
  have hix : i = A.length := getElem?_eq_of_count_le_one hcx hi hx
  have hjy : j = A.length + 1 + B.length := getElem?_eq_of_count_le_one hcy hj hy
  omega

/-- Splitting a list at the head of its filtered image. -/
theorem filter_eq_cons_split {α : Type} {p : α → Bool} :
    ∀ {l : List α} {a : α} {as : List α}, l.filter p = a :: as →
      ∃ l1 l2, l = l1 ++ a :: l2 ∧ l2.filter p = as := by
  intro l
  induction l with
  | nil => intro a as h; simp at h
  | cons b l ih =>
    intro a as h
    by_cases hp : p b
    · rw [List.filter_cons_of_pos hp] at h
      obtain ⟨rfl, rfl⟩ : b = a ∧ l.filter p = as := by
        constructor <;> simp_all
      exact ⟨[], l, by simp, rfl⟩
    · rw [List.filter_cons_of_neg hp] at h
      obtain ⟨l1, l2, rfl, h2⟩ := ih h
      exact ⟨b :: l1, l2, rfl, h2⟩

/-- Splitting a list at any marked element of its filtered image. -/
theorem filter_eq_append_cons_split {α : Type} {p : α → Bool} :
    ∀ (u : List α) {l : List α} {a : α} {as : List α}, l.filter p = u ++ a :: as →
      ∃ l1 l2, l = l1 ++ a :: l2 ∧ l2.filter p = as := by
  intro u
  induction u with
  | nil => intro l a as h; exact filter_eq_cons_split h
  | cons b u ih =>
    intro l a as h
    rw [List.cons_append] at h
    obtain ⟨l1, l2, rfl, h2⟩ := filter_eq_cons_split h
    obtain ⟨m1, m2, rfl, hm2⟩ := ih h2
    exact ⟨l1 ++ b :: m1, m2, by simp, hm2⟩

/-- Relative order in the filtered image forces relative order of positions
in the original list, for elements occurring at most once. -/
theorem filter_order {p : Bool × Act → Bool} {zs : List (Bool × Act)}
    {x y : Bool × Act} (u v w : List (Bool × Act))
    (hf : zs.filter p = u ++ x :: (v ++ y :: w))
    (hcx : zs.count x ≤ 1) (hcy : zs.count y ≤ 1)
    {i j : Nat} (hi : zs[i]? = some x) (hj : zs[j]? = some y) : i < j := by
  obtain ⟨A, B, rfl, hB⟩ := filter_eq_append_cons_split u hf
  obtain ⟨C, D, rfl, _⟩ := filter_eq_append_cons_split v hB
  have hsplit : A ++ x :: (C ++ y :: D) = A ++ x :: (C ++ y :: D) := rfl
  exact lt_of_split_unique hsplit hcx hcy hi hj

/-! Each handler invocation acquires and releases the room lock exactly
once (broadcast disabled for `change_membership`). -/

theorem stamp_room_id (n : Nat) (e : Event) : (stamp n e).room_id = e.room_id := rfl

/-- The lock operations of one `send_message` run. -/
theorem send_message_lockOps (env : Env) (ev : Event) (sa se : Bool) :
    ((send_message env ev sa se).1).filter isLockOp =
      [Act.acquire ev.room_id, Act.release ev.room_id] := by
  cases se <;> cases sa <;>
    by_cases h : env.authOk (if true then stamp env.now ev else ev) <;>
    by_cases h2 : env.authOk (if false then stamp env.now ev else ev) <;>
      simp_all [send_message, isLockOp, stamp]

/-- The lock operations of one `send_feedback` run. -/
theorem send_feedback_lockOps (env : Env) (ev : Event) (se : Bool) :
    ((send_feedback env ev se).1).filter isLockOp =
      [Act.acquire ev.room_id, Act.release ev.room_id] := by
  cases se <;>
    by_cases h : env.authOk (if true then stamp env.now ev else ev) <;>
    by_cases h2 : env.authOk (if false then stamp env.now ev else ev) <;>
      simp_all [send_feedback, isLockOp, stamp]

/-- The lock operations of the shared mutation sequence. -/
theorem membershipCommit_lockOps (env : Env) (ev : Event) (pre : List Act)
    (hpre : pre.filter isLockOp = [Act.acquire ev.room_id]) :
    ((membershipCommit env ev pre).1).filter isLockOp =
      [Act.acquire ev.room_id, Act.release ev.room_id] := by
  simp [membershipCommit, do_membership_update, isLockOp, List.filter_append, hpre]

/-- The lock operations of one `change_membership` transition (before the
optional broadcast). -/
theorem change_membership_main_lockOps (env : Env) (ev : Event) (da : Bool) :
    ((change_membership_main env ev da).1).filter isLockOp =
      [Act.acquire ev.room_id, Act.release ev.room_id] := by
  have hauth : ∀ b : Bool,
      ((if b then [Act.authCheck ev.room_id true] else []).filter isLockOp) = [] := by
    intro b; cases b <;> simp [isLockOp]
  by_cases hj : ev.membership = some Membership.JOIN
  · by_cases ha : da && !env.authOk ev
    · simp [change_membership_main, hj, ha, isLockOp]
    · rcases hm : env.get_room_member ev.target_user_id ev.room_id with _ | p
      · simp [change_membership_main, hj, ha, hm, membershipCommit,
          do_membership_update, List.filter_append, hauth, isLockOp]
      · by_cases hinv : p.membership = Membership.INVITE
        · by_cases hdance : !env.is_mine p.sender && (env.get_room ev.room_id).isNone
          · by_cases hstore : env.storeRoomOk ev.room_id <;>
              simp [change_membership_main, hj, ha, hm, hinv, hdance, hstore,
                List.filter_append, hauth, isLockOp]
          · simp [change_membership_main, hj, ha, hm, hinv, hdance, membershipCommit,
              do_membership_update, List.filter_append, hauth, isLockOp]
        · simp [change_membership_main, hj, ha, hm, hinv, membershipCommit,
            do_membership_update, List.filter_append, hauth, isLockOp]
  · by_cases ha : da && !env.authOk ev
    · simp [change_membership_main, hj, ha, isLockOp]
    · simp [change_membership_main, hj, ha, membershipCommit,
        do_membership_update, List.filter_append, hauth, isLockOp]

/-- With broadcast disabled, `change_membership` is exactly its main
transition. -/
theorem change_membership_no_broadcast (env : Env) (ev : Event) (da : Bool) :
    change_membership env ev false da = change_membership_main env ev da := by
  unfold change_membership
  rcases h : (change_membership_main env ev da).2 with e | u <;> simp [h]

/-- Every handler trace for room `R` acquires and releases the `R` lock
exactly once, in that order. -/
theorem handlerTrace_lockOps {R : String} {xs : List Act} (h : HandlerTrace R xs) :
    xs.filter isLockOp = [Act.acquire R, Act.release R] := by
  rcases h with ⟨env, ev, sa, se, rfl, rfl⟩ | ⟨env, ev, se, rfl, rfl⟩ | ⟨env, ev, da, rfl, rfl⟩
  · exact send_message_lockOps env ev sa se
  · exact send_feedback_lockOps env ev se
  · rw [change_membership_no_broadcast]
    exact change_membership_main_lockOps env ev da

/-- Mutual exclusion: with both handler invocations targeting the same room,
no valid schedule interleaves their critical sections. -/
theorem room_lock_mutual_exclusion {R : String} {xs ys : List Act} {zs : List (Bool × Act)}
    (hx : HandlerTrace R xs) (hy : HandlerTrace R ys)
    (hI : Interleaving xs ys zs) (hv : lockValid zs) :
    NoCriticalInterleave R zs := by
  have hfx := handlerTrace_lockOps hx
  have hfy := handlerTrace_lockOps hy
  have hIf : Interleaving (xs.filter isLockOp) (ys.filter isLockOp)
      (zs.filter (fun ta => isLockOp ta.2)) := hI.filter_congr
  rw [hfx, hfy] at hIf
  have hvf : lockValid (zs.filter (fun ta => isLockOp ta.2)) := by
    unfold lockValid at hv ⊢
    rw [lockRun_filter]
    exact hv
  have hcnt : ∀ t : Bool, ∀ a : Act, isLockOp a = true →
      (zs.filter (fun ta => isLockOp ta.2)).count (t, a) = zs.count (t, a) := by
    intro t a ha
    exact List.count_filter (by simpa using ha)
  rcases serial_of_valid_merge hIf hvf with hser | hser
  · left
    intro i j hci hcj
    obtain ⟨j1, k1, hj1i, hik1, _, hgk1⟩ := hci
    obtain ⟨j2, k2, hj2j, _, hgj2, _⟩ := hcj
    have hc1 : zs.count ((true : Bool), Act.release R) ≤ 1 := by
      have hcf := hcnt true (Act.release R) (by simp [isLockOp])
      rw [hser] at hcf
      rw [← hcf]
      simp [List.count_cons]
    have hc2 : zs.count ((false : Bool), Act.acquire R) ≤ 1 := by
      have hcf := hcnt false (Act.acquire R) (by simp [isLockOp])
      rw [hser] at hcf
      rw [← hcf]
      simp [List.count_cons]
    have hlt : k1 < j2 :=
      filter_order [(true, Act.acquire R)] [] [(false, Act.release R)]
        (by simpa using hser) hc1 hc2 hgk1 hgj2
    omega
  · right
    intro i j hci hcj
    obtain ⟨j1, k1, hj1i, hik1, _, hgk1⟩ := hci
    obtain ⟨j2, k2, hj2j, _, hgj2, _⟩ := hcj
    have hc1 : zs.count ((false : Bool), Act.release R) ≤ 1 := by
      have hcf := hcnt false (Act.release R) (by simp [isLockOp])
      rw [hser] at hcf
      rw [← hcf]
      simp [List.count_cons]
    have hc2 : zs.count ((true : Bool), Act.acquire R) ≤ 1 := by
      have hcf := hcnt true (Act.acquire R) (by simp [isLockOp])
      rw [hser] at hcf
      rw [← hcf]
      simp [List.count_cons]
    have hlt : k1 < j2 :=
      filter_order [(false, Act.acquire R)] [] [(true, Act.release R)]
        (by simpa using hser) hc1 hc2 hgk1 hgj2
    omega

/-- A trace whose lock operations are confined to room `R`. -/
def lockOpsOnly (R : String) (xs : List Act) : Prop :=
  ∀ a ∈ xs, isLockOp a = true → a = Act.acquire R ∨ a = Act.release R

/-- A single-bracket trace only contains the two `R` lock operations. -/
theorem lockOpsOnly_of_filter {R : String} {xs : List Act}
    (h : xs.filter isLockOp = [Act.acquire R, Act.release R]) : lockOpsOnly R xs := by
  intro a ha hop
  have hmem : a ∈ xs.filter isLockOp := List.mem_filter.mpr ⟨ha, hop⟩
  rw [h] at hmem
  simpa using hmem

/-- Validity of one thread's trace run alone from state `s`. -/
def soloValid (t : Bool) (s : LockState) (xs : List Act) : Prop :=
  (lockRun s (xs.map ((t, ·)))).isSome = true

/-- A lock step leaves every other room's lock untouched. -/
theorem lockStep_apply_ne {s : LockState} {t : Bool} {a : Act} {s1 : LockState}
    (h : lockStep s t a = some s1) {r : String}
    (hr : ∀ q : String, a = Act.acquire q ∨ a = Act.release q → q ≠ r) : s1 r = s r := by
  cases a with
  | acquire q =>
    have hq : q ≠ r := hr q (Or.inl rfl)
    rcases hsq : s q with _ | b
    · simp only [lockStep, hsq] at h
      obtain rfl : Function.update s q (some t) = s1 := by
        simpa using h
      exact Function.update_noteq (by simpa using fun hc => hq hc.symm) _ _
    · simp [lockStep, hsq] at h
  | release q =>
    have hq : q ≠ r := hr q (Or.inr rfl)
    by_cases hsq : s q = some t
    · simp only [lockStep, if_pos hsq] at h
      obtain rfl : Function.update s q none = s1 := by
        simpa using h
      exact Function.update_noteq (by simpa using fun hc => hq hc.symm) _ _
    · simp [lockStep, hsq] at h
  | stampEv q => simp_all [lockStep]
  | authCheck q b => simp_all [lockStep]
  | persistEvent e => simp_all [lockStep]
  | getJoinedHosts q => simp_all [lockStep]
  | federationSend e => simp_all [lockStep]
  | notify e n => simp_all [lockStep]
  | storeRoomMember q u se m => simp_all [lockStep]
  | getRoomMember u q => simp_all [lockStep]
  | getRoom q => simp_all [lockStep]
  | storeRoomCall q c pub ok => simp_all [lockStep]
  | stateHandle e => simp_all [lockStep]
  | getStateForRoom hst q => simp_all [lockStep]

/-- The solo run of a trace confined to room `R` only depends on the lock
state at `R`. -/
theorem lockRun_agree_of_only {R : String} {t : Bool} :
    ∀ (xs : List Act), lockOpsOnly R xs →
      ∀ (s s' : LockState), s R = s' R →
        (lockRun s (xs.map ((t, ·)))).isSome = (lockRun s' (xs.map ((t, ·)))).isSome := by
  intro xs
  induction xs with
  | nil => intro _ s s' _; rfl
  | cons a xs ih =>
    intro honly s s' hR
    have htail : lockOpsOnly R xs := fun b hb => honly b (List.mem_cons_of_mem a hb)
    by_cases hop : isLockOp a = true
    · rcases honly a (List.mem_cons_self a xs) hop with rfl | rfl
      · simp only [List.map_cons, lockRun, lockStep, hR]
        cases hsR : s' R with
        | none =>
          simp only []
          exact ih htail _ _ (by simp)
        | some b => simp
      · simp only [List.map_cons, lockRun, lockStep, hR]
        by_cases hsR : s' R = some t
        · simp only [if_pos hsR]
          exact ih htail _ _ (by simp)
        · simp [hsR]
    · have hstep := lockStep_nonop (by simpa using hop)
      simp only [List.map_cons, lockRun, hstep]
      exact ih htail s s' hR

/-- Operations on distinct rooms never block each other: any interleaving of
a trace confined to `R1` with one confined to `R2 ≠ R1`, each valid on its
own, is a valid schedule. -/
theorem lockRun_merge_indep {R1 R2 : String} (hne : R1 ≠ R2) :
    ∀ {xs ys : List Act} {zs : List (Bool × Act)}, Interleaving xs ys zs →
      lockOpsOnly R1 xs → lockOpsOnly R2 ys →
      ∀ s : LockState, soloValid true s xs → soloValid false s ys →
        (lockRun s zs).isSome = true := by
  intro xs ys zs hI
  induction hI with
  | nil => intro _ _ s _ _; rfl
  | @left x xs ys zs hI ih =>
    intro hx hy s hsx hsy
    have hxtail : lockOpsOnly R1 xs := fun b hb => hx b (List.mem_cons_of_mem x hb)
    unfold soloValid at hsx
    simp only [List.map_cons, lockRun] at hsx
    cases hstep : lockStep s true x with
    | none => rw [hstep] at hsx; simp at hsx
    | some s1 =>
      rw [hstep] at hsx
      have hagree : s R2 = s1 R2 := by
        have hxops := hx x (List.mem_cons_self x xs)
        refine (lockStep_apply_ne hstep ?_).symm
        intro q hq
        have hop : isLockOp x = true := by
          rcases hq with rfl | rfl <;> simp [isLockOp]
        rcases hxops hop with rfl | rfl <;> rcases hq with hq | hq <;> simp at hq <;>
          exact hq ▸ hne
      have hsy1 : soloValid false s1 ys := by
        unfold soloValid at hsy ⊢
        rw [← lockRun_agree_of_only ys hy s s1 hagree]
        exact hsy
      simp only [lockRun, hstep]
      exact ih hxtail hy s1 hsx hsy1
  | @right y xs ys zs hI ih =>
    intro hx hy s hsx hsy
    have hytail : lockOpsOnly R2 ys := fun b hb => hy b (List.mem_cons_of_mem y hb)
    unfold soloValid at hsy
    simp only [List.map_cons, lockRun] at hsy
    cases hstep : lockStep s false y with
    | none => rw [hstep] at hsy; simp at hsy
    | some s1 =>
      rw [hstep] at hsy
      have hagree : s R1 = s1 R1 := by
        have hyops := hy y (List.mem_cons_self y ys)
        refine (lockStep_apply_ne hstep ?_).symm
        intro q hq
        have hop : isLockOp y = true := by
          rcases hq with rfl | rfl <;> simp [isLockOp]
        rcases hyops hop with rfl | rfl <;> rcases hq with hq | hq <;> simp at hq <;>
          exact hq ▸ hne.symm
      have hsx1 : soloValid true s1 xs := by
        unfold soloValid at hsx ⊢
        rw [← lockRun_agree_of_only xs hx s s1 hagree]
        exact hsx
      simp only [lockRun, hstep]
      exact ih hx hytail s1 hsx1 hsy

/-- Filtering commutes with tagging. -/
theorem filter_map_tag (t : Bool) (xs : List Act) :
    (xs.map ((t, ·))).filter (fun ta => isLockOp ta.2) = (xs.filter isLockOp).map ((t, ·)) := by
  induction xs with
  | nil => rfl
  | cons a xs ih =>
    by_cases h : isLockOp a <;> simp [List.filter_cons, h, ih]

/-- A single-bracket trace is valid on its own from any state in which its
room's lock is free. -/
theorem soloValid_of_lockOps {R : String} {xs : List Act} (t : Bool)
    (h : xs.filter isLockOp = [Act.acquire R, Act.release R])
    (s : LockState) (hs : s R = none) : soloValid t s xs := by
  unfold soloValid
  rw [← lockRun_filter, filter_map_tag, h]
  simp [lockRun, lockStep, hs]

/-- Handler invocations on distinct rooms never block: every interleaving is
a valid schedule. -/
theorem room_lock_independent {R1 R2 : String} (hne : R1 ≠ R2) {xs ys : List Act}
    {zs : List (Bool × Act)}
    (hx : HandlerTrace R1 xs) (hy : HandlerTrace R2 ys) (hI : Interleaving xs ys zs) :
    lockValid zs := by
  have hfx := handlerTrace_lockOps hx
  have hfy := handlerTrace_lockOps hy
  exact lockRun_merge_indep hne hI (lockOpsOnly_of_filter hfx) (lockOpsOnly_of_filter hfy)
    noLock (soloValid_of_lockOps true hfx noLock rfl) (soloValid_of_lockOps false hfy noLock rfl)

/-! Trace predicates used to state the claims. -/

/-- Recognizes a lock release. -/
def isReleaseAct : Act → Bool
  | .release _ => true
  | _ => false

/-- Recognizes a federation forward. -/
def isFedSendAct : Act → Bool
  | .federationSend _ => true
  | _ => false

/-- Recognizes a local notification. -/
def isNotifyAct : Act → Bool
  | .notify _ _ => true
  | _ => false

/-- Recognizes an event persist. -/
def isPersistAct : Act → Bool
  | .persistEvent _ => true
  | _ => false

/-- Recognizes a joined-hosts (destination-computation) read. -/
def isGetHostsAct : Act → Bool
  | .getJoinedHosts _ => true
  | _ => false

/-- Recognizes a membership-row write (`store_room_member`). -/
def isStoreMemberAct : Act → Bool
  | .storeRoomMember _ _ _ _ => true
  | _ => false

/-- Recognizes a federation forward of a join-request (`InviteJoinEvent`). -/
def isInviteJoinSendAct : Act → Bool
  | .federationSend e => e.etype == InviteJoinEventType
  | _ => false

/-- Recognizes a remote-state fetch. -/
def isGetStateAct : Act → Bool
  | .getStateForRoom _ _ => true
  | _ => false

/-- Recognizes a state-reconciliation call. -/
def isStateHandleAct : Act → Bool
  | .stateHandle _ => true
  | _ => false

/-! Claim theorems. -/

/-- C5: for every `get_room_path_data` call with the room-topic event type on
a private room, the effective private-room rule set is `{invite, join}`
regardless of the caller-supplied `private_room_rules`: a member with
membership `invite` is allowed to read (even against stricter caller rules)
and a member with membership `leave` is refused with Forbidden. -/
theorem claim_C5_topic_read_private_room (env : Env) (user_id room_id path : String)
    (pub_rules priv_rules : List String) (room : Room) (row : RoomMemberRow)
    (hroom : env.get_room room_id = some room) (hpriv : room.is_public = false)
    (hrow : env.get_room_member user_id room_id = some row) :
    effectivePrivateRules RoomTopicEventType priv_rules =
      [Membership.INVITE, Membership.JOIN] ∧
    (row.membership = Membership.INVITE →
      get_room_path_data env user_id room_id path RoomTopicEventType pub_rules priv_rules =
        .ok (env.get_path_data path)) ∧
    (row.membership = Membership.LEAVE →
      get_room_path_data env user_id room_id path RoomTopicEventType pub_rules priv_rules =
        .error (.roomError 403 "Member does not meet private room rules.")) := by
  refine ⟨by simp [effectivePrivateRules], ?_, ?_⟩
  · intro hm
    simp [get_room_path_data, effectivePrivateRules, hroom, hrow, hpriv, hm,
      memberStateIn, Membership.INVITE, Membership.JOIN]
  · intro hm
    simp [get_room_path_data, effectivePrivateRules, hroom, hrow, hpriv, hm,
      memberStateIn, Membership.INVITE, Membership.JOIN, Membership.LEAVE]

/-- C6: `get_room_path_data` fails with Forbidden on a missing room;
otherwise a public room requires the caller's membership state to be in
`public_room_rules` unless that list is empty, a private room requires it to
be in the effective private rules (the caller-supplied list, relaxed for the
room-topic type) unless empty, a mismatch is Forbidden, and only a satisfied
(or empty) rule yields the stored path data. -/
theorem claim_C6_membership_rule_table (env : Env) (user_id room_id path event_type : String)
    (pub_rules priv_rules : List String) :
    (env.get_room room_id = none →
      get_room_path_data env user_id room_id path event_type pub_rules priv_rules =
        .error (.roomError 403 "Room does not exist.")) ∧
    (∀ room : Room, env.get_room room_id = some room →
      (room.is_public = true → pub_rules ≠ [] →
        memberStateIn ((env.get_room_member user_id room_id).map (·.membership))
          pub_rules = false →
        get_room_path_data env user_id room_id path event_type pub_rules priv_rules =
          .error (.roomError 403 "Member does not meet public room rules.")) ∧
      (room.is_public = true →
        (pub_rules = [] ∨
          memberStateIn ((env.get_room_member user_id room_id).map (·.membership))
            pub_rules = true) →
        get_room_path_data env user_id room_id path event_type pub_rules priv_rules =
          .ok (env.get_path_data path)) ∧
      (room.is_public = false → effectivePrivateRules event_type priv_rules ≠ [] →
        memberStateIn ((env.get_room_member user_id room_id).map (·.membership))
          (effectivePrivateRules event_type priv_rules) = false →
        get_room_path_data env user_id room_id path event_type pub_rules priv_rules =
          .error (.roomError 403 "Member does not meet private room rules.")) ∧
      (room.is_public = false →
        (effectivePrivateRules event_type priv_rules = [] ∨
          memberStateIn ((env.get_room_member user_id room_id).map (·.membership))
            (effectivePrivateRules event_type priv_rules) = true) →
        get_room_path_data env user_id room_id path event_type pub_rules priv_rules =
          .ok (env.get_path_data path))) := by
  constructor
  · intro hnone
    simp [get_room_path_data, hnone]
  · intro room hroom
    refine ⟨?_, ?_, ?_, ?_⟩
    · intro hpub hne hms
      rcases pub_rules with _ | ⟨r, rs⟩
      · exact absurd rfl hne
      · simp [get_room_path_data, hroom, hpub, hms]
    · intro hpub hok
      rcases hok with rfl | hms
      · simp [get_room_path_data, hroom, hpub]
      · rcases pub_rules with _ | ⟨r, rs⟩
        · simp [get_room_path_data, hroom, hpub]
        · simp [get_room_path_data, hroom, hpub, hms]
    · intro hpriv hne hms
      rcases heff : effectivePrivateRules event_type priv_rules with _ | ⟨r, rs⟩
      · exact absurd heff hne
      · simp [get_room_path_data, hroom, hpriv, heff, hms, heff ▸ hms]
    · intro hpriv hok
      rcases hok with heff | hms
      · simp [get_room_path_data, hroom, hpriv, heff]
      · rcases heff : effectivePrivateRules event_type priv_rules with _ | ⟨r, rs⟩
        · simp [get_room_path_data, hroom, hpriv, heff]
        · simp [get_room_path_data, hroom, hpriv, heff, heff ▸ hms]

/-- C9: a membership value other than invite, join or leave reaching the
notification-synthesis step is a fatal internal error (`RoomError 500`) and
no broadcast message is constructed or sent; each recognized value produces
the system-authored text message and sends it through `send_message` with
authorization suppressed (which succeeds). -/
theorem claim_C9_broadcast_membership_msg (env : Env)
    (room_id source target membership : String) :
    (broadcastBody source target membership = none →
      inject_membership_msg env room_id source target membership =
        ([], .error (.roomError 500 ("Unknown membership value " ++ membership)))) ∧
    (membership ≠ Membership.INVITE → membership ≠ Membership.JOIN →
      membership ≠ Membership.LEAVE → broadcastBody source target membership = none) ∧
    (∀ body, broadcastBody source target membership = some body →
      inject_membership_msg env room_id source target membership =
        send_message env (broadcastEvent env room_id body) true true ∧
      (inject_membership_msg env room_id source target membership).2 = .ok ()) ∧
    broadcastBody source target Membership.INVITE =
      some (source ++ " invited " ++ target ++ " to the room.") ∧
    broadcastBody source target Membership.JOIN =
      some (target ++ " joined the room.") ∧
    broadcastBody source target Membership.LEAVE =
      some (target ++ " left the room.") := by
  refine ⟨?_, ?_, ?_, ?_, ?_, ?_⟩
  · intro hnone
    simp [inject_membership_msg, hnone]
  · intro h1 h2 h3
    simp [broadcastBody, h1, h2, h3]
  · intro body hbody
    refine ⟨by simp [inject_membership_msg, hbody], ?_⟩
    simp [inject_membership_msg, hbody, send_message]
  · simp [broadcastBody, Membership.INVITE]
  · simp [broadcastBody, Membership.JOIN, Membership.INVITE]
  · simp [broadcastBody, Membership.LEAVE, Membership.INVITE, Membership.JOIN]

/-- With the id-generation budget exhausted by collisions, the loop fails
fatally and every storage call in its trace is a failed one. -/
theorem gen_room_loop_all_fail (env : Env) (u : String) (pub : Bool) :
    ∀ (rem attempt : Nat),
      (∀ j, j < rem → env.storeRoomOk (env.gen (attempt + j)) = false) →
      (gen_room_loop env u pub attempt rem).2 =
        .error (.storeError 500 "Couldn\x27t generate a room ID.") ∧
      ∀ a ∈ (gen_room_loop env u pub attempt rem).1,
        ∃ g, a = Act.storeRoomCall g u pub false := by
  intro rem
  induction rem with
  | zero => intro attempt _; exact ⟨rfl, by simp [gen_room_loop]⟩
  | succ r ih =>
    intro attempt hall
    have h0 : env.storeRoomOk (env.gen attempt) = false := by
      simpa using hall 0 (Nat.succ_pos r)
    obtain ⟨hres, htr⟩ := ih (attempt + 1) (fun j hj => by
      have hx := hall (j + 1) (by omega)
      rw [show attempt + 1 + j = attempt + (j + 1) by omega]
      exact hx)
    refine ⟨by simp [gen_room_loop, h0, hres], ?_⟩
    intro a ha
    simp only [gen_room_loop, h0, Bool.false_eq_true, if_false, List.mem_cons] at ha
    rcases ha with rfl | ha
    · exact ⟨env.gen attempt, rfl⟩
    · exact htr a ha

/-- When the first `k` generated ids collide and the next is accepted, the
loop returns that id. -/
theorem gen_room_loop_success (env : Env) (u : String) (pub : Bool) :
    ∀ (k rem attempt : Nat), k < rem →
      (∀ j, j < k → env.storeRoomOk (env.gen (attempt + j)) = false) →
      env.storeRoomOk (env.gen (attempt + k)) = true →
      (gen_room_loop env u pub attempt rem).2 = .ok (env.gen (attempt + k)) := by
  intro k
  induction k with
  | zero =>
    intro rem attempt hk _ hok
    rcases rem with _ | r
    · omega
    · simp only [Nat.add_zero] at hok
      simp [gen_room_loop, hok]
  | succ k ih =>
    intro rem attempt hk hfail hok
    rcases rem with _ | r
    · omega
    · have h0 : env.storeRoomOk (env.gen attempt) = false := by
        simpa using hfail 0 (by omega)
      have hrec := ih r (attempt + 1) (by omega)
        (fun j hj => by
          have hx := hfail (j + 1) (by omega)
          rw [show attempt + 1 + j = attempt + (j + 1) by omega]
          exact hx)
        (by
          have hx := hok
          rw [show attempt + 1 + k = attempt + (k + 1) by omega]
          exact hx)
      have hshift : attempt + 1 + k = attempt + (k + 1) := by omega
      rw [hshift] at hrec
      simp [gen_room_loop, h0, hrec]

/-- The creator's initial join of a fresh room (no prior membership row)
succeeds, including its broadcast message. -/
theorem change_membership_creator_join_ok (env : Env) (u rid : String)
    (hprev : env.get_room_member u rid = none) :
    (change_membership env (creatorJoinEvent u rid) true false).2 = .ok () := by
  simp [change_membership, change_membership_main, creatorJoinEvent, hprev, membershipCommit,
    do_membership_update, inject_membership_msg, broadcastBody, broadcastEvent, send_message,
    Membership.JOIN, Membership.INVITE]

/-- C4: with `room_id` absent, `create_room` retries id generation on each
collision, up to 5 attempts in total; if the store accepts the `k`-th
generated id (0-based, `k < 5`) the call succeeds and returns that id, and if
all 5 attempts collide it fails with the fatal allocation error and no room
is created (every storage call in its trace is a rejected one). -/
theorem claim_C4_create_room_retry (env : Env) (user_id : String) (pub : Bool) :
    (∀ k, k < 5 → (∀ j, j < k → env.storeRoomOk (env.gen j) = false) →
      env.storeRoomOk (env.gen k) = true →
      env.get_room_member user_id (env.gen k) = none →
      (create_room env user_id none pub).2 = .ok (env.gen k)) ∧
    ((∀ j, j < 5 → env.storeRoomOk (env.gen j) = false) →
      (create_room env user_id none pub).2 =
        .error (.storeError 500 "Couldn\x27t generate a room ID.") ∧
      ∀ a ∈ (create_room env user_id none pub).1,
        ∃ g, a = Act.storeRoomCall g user_id pub false) := by
  constructor
  · intro k hk hfail hok hfresh
    have hloop : (gen_room_loop env user_id pub 0 5).2 = .ok (env.gen k) := by
      have hx := gen_room_loop_success env user_id pub k 5 0 hk
        (fun j hj => by simpa using hfail j hj) (by simpa using hok)
      simpa using hx
    have hjoin := change_membership_creator_join_ok env user_id (env.gen k) hfresh
    simp [create_room, hloop, hjoin]
  · intro hall
    obtain ⟨hres, htr⟩ := gen_room_loop_all_fail env user_id pub 5 0
      (fun j hj => by simpa using hall j hj)
    exact ⟨by simp [create_room, hres], by
      intro a ha
      simp only [create_room, hres] at ha
      exact htr a ha⟩

/-- C8: a failed authorization check aborts `send_message` (with auth
enabled) and `change_membership` (with `do_auth`) before any mutation: the
whole trace is stamp/acquire/failed-check/release with no persist, store,
reconciliation, federation or notification, the lock is released, and the
result is the authorization error. -/
theorem claim_C8_auth_failure_aborts (env : Env) (ev : Event) :
    (∀ se : Bool, env.authOk (if se then stamp env.now ev else ev) = false →
      send_message env ev false se =
        ((if se then [Act.stampEv ev.room_id] else []) ++
          [Act.acquire ev.room_id, Act.authCheck ev.room_id false, Act.release ev.room_id],
         .error .authError)) ∧
    (∀ bm : Bool, env.authOk ev = false →
      change_membership env ev bm true =
        ([Act.acquire ev.room_id, Act.authCheck ev.room_id false, Act.release ev.room_id],
         .error .authError)) := by
  constructor
  · intro se hauth
    cases se <;> simp_all [send_message, stamp]
  · intro bm hauth
    by_cases hj : ev.membership = some Membership.JOIN <;>
      simp [change_membership, change_membership_main, hj, hauth]

/-- C7: in every successful call, `send_feedback` forwards to federation and
notifies locally strictly after releasing the room lock, while `send_message`
does both while still holding it; both persist and compute destinations
inside the lock.  Stated by the positions of the unique release, persist,
destination-read, forward and notify actions in each trace. -/
theorem claim_C7_forwarding_lock_asymmetry (env : Env) (evm evf : Event)
    (hm : env.authOk (stamp env.now evm) = true)
    (hf : env.authOk (stamp env.now evf) = true) :
    ((send_feedback env evf true).1).countP isFedSendAct = 1 ∧
    ((send_feedback env evf true).1).countP isNotifyAct = 1 ∧
    ((send_message env evm false true).1).countP isFedSendAct = 1 ∧
    ((send_message env evm false true).1).countP isNotifyAct = 1 ∧
    ((send_feedback env evf true).1).findIdx? isPersistAct = some 3 ∧
    ((send_feedback env evf true).1).findIdx? isGetHostsAct = some 4 ∧
    ((send_feedback env evf true).1).findIdx? isReleaseAct = some 5 ∧
    ((send_feedback env evf true).1).findIdx? isFedSendAct = some 6 ∧
    ((send_feedback env evf true).1).findIdx? isNotifyAct = some 7 ∧
    ((send_message env evm false true).1).findIdx? isPersistAct = some 3 ∧
    ((send_message env evm false true).1).findIdx? isGetHostsAct = some 4 ∧
    ((send_message env evm false true).1).findIdx? isFedSendAct = some 5 ∧
    ((send_message env evm false true).1).findIdx? isNotifyAct = some 6 ∧
    ((send_message env evm false true).1).findIdx? isReleaseAct = some 7 := by
  refine ⟨?_, ?_, ?_, ?_, ?_, ?_, ?_, ?_, ?_, ?_, ?_, ?_, ?_, ?_⟩ <;>
    simp [send_feedback, send_message, hm, hf, List.findIdx?_cons, List.countP_cons,
      isFedSendAct, isNotifyAct, isPersistAct, isGetHostsAct, isReleaseAct]

/-- The shared mutation sequence stores exactly one membership row when its
locked prefix stores none. -/
theorem membershipCommit_countP_store (env : Env) (ev : Event) (pre : List Act)
    (hpre : pre.countP isStoreMemberAct = 0) :
    (membershipCommit env ev pre).1.countP isStoreMemberAct = 1 := by
  simp [membershipCommit, do_membership_update, List.countP_append, List.countP_cons,
    isStoreMemberAct, hpre]

/-- The membership row written by the shared mutation sequence. -/
theorem membershipCommit_mem_store (env : Env) (ev : Event) (pre : List Act) :
    Act.storeRoomMember ev.room_id ev.target_user_id ev.user_id
      (ev.content.membership.getD "") ∈ (membershipCommit env ev pre).1 := by
  simp [membershipCommit, do_membership_update]

/-- The federation forward of the updated event in the shared mutation
sequence. -/
theorem membershipCommit_mem_fed (env : Env) (ev : Event) (pre : List Act) :
    Act.federationSend ((do_membership_update env ev).2.2) ∈ (membershipCommit env ev pre).1 := by
  simp [membershipCommit]

/-- A broadcast message trace stores no membership row and performs no
join-request send and no remote-state fetch. -/
theorem inject_membership_msg_counts (env : Env) (r s t m : String) :
    (inject_membership_msg env r s t m).1.countP isInviteJoinSendAct = 0 ∧
    (inject_membership_msg env r s t m).1.countP isGetStateAct = 0 ∧
    (inject_membership_msg env r s t m).1.countP isStoreMemberAct = 0 := by
  rcases hb : broadcastBody s t m with _ | body <;>
    simp [inject_membership_msg, hb, send_message, broadcastEvent, stamp, List.countP_cons,
      List.countP_append, isInviteJoinSendAct, isGetStateAct, isStoreMemberAct,
      InviteJoinEventType, MessageEventType]

/-- When the dance condition fails, a JOIN transition runs the shared
mutation sequence under the lock, with a store-free locked prefix. -/
theorem ordinary_join_commit (env : Env) (ev : Event) (da : Bool)
    (hjoin : ev.membership = some Membership.JOIN)
    (hauth : da = true → env.authOk ev = true)
    (hnodance : danceCond env ev = false) :
    ∃ pre : List Act, pre.countP isStoreMemberAct = 0 ∧
      change_membership_main env ev da = membershipCommit env ev pre := by
  have hda : (da && !env.authOk ev) = false := by
    cases da
    · rfl
    · simp [hauth rfl]
  rcases hm : env.get_room_member ev.target_user_id ev.room_id with _ | p
  · refine ⟨[Act.acquire ev.room_id] ++
      (if da then [Act.authCheck ev.room_id true] else []) ++
      [Act.getRoomMember ev.target_user_id ev.room_id], ?_, ?_⟩
    · cases da <;> simp [isStoreMemberAct, List.countP_append, List.countP_cons]
    · simp [change_membership_main, hjoin, hda, hm]
  · by_cases hinv : p.membership = Membership.INVITE
    · have hrem : (!env.is_mine p.sender && (env.get_room ev.room_id).isNone) = false := by
        cases hcond : (!env.is_mine p.sender && (env.get_room ev.room_id).isNone) with
        | false => rfl
        | true =>
          exfalso
          have hdc : danceCond env ev = true := by simp [danceCond, hm, hinv, hcond]
          rw [hnodance] at hdc
          exact Bool.false_ne_true hdc
      refine ⟨[Act.acquire ev.room_id] ++
        (if da then [Act.authCheck ev.room_id true] else []) ++
        [Act.getRoomMember ev.target_user_id ev.room_id, Act.getRoom ev.room_id], ?_, ?_⟩
      · cases da <;> simp [isStoreMemberAct, List.countP_append, List.countP_cons]
      · simp [change_membership_main, hjoin, hda, hm, hinv, hrem]
    · refine ⟨[Act.acquire ev.room_id] ++
        (if da then [Act.authCheck ev.room_id true] else []) ++
        [Act.getRoomMember ev.target_user_id ev.room_id], ?_, ?_⟩
      · cases da <;> simp [isStoreMemberAct, List.countP_append, List.countP_cons]
      · simp [change_membership_main, hjoin, hda, hm, hinv]

/-- C3: a JOIN transition with the dance condition false commits exactly one
membership row, with membership `join`, for (room, target user), and sets the
event's destinations to the stored joined-host set of the room union the
joining user's own home server. -/
theorem claim_C3_ordinary_join (env : Env) (ev : Event) (bm da : Bool)
    (hjoin : ev.membership = some Membership.JOIN)
    (hcontent : ev.content.membership = some Membership.JOIN)
    (hauth : da = true → env.authOk ev = true)
    (hnodance : danceCond env ev = false) :
    (change_membership env ev bm da).1.countP isStoreMemberAct = 1 ∧
    Act.storeRoomMember ev.room_id ev.target_user_id ev.user_id Membership.JOIN ∈
      (change_membership env ev bm da).1 ∧
    Act.federationSend ((do_membership_update env ev).2.2) ∈
      (change_membership env ev bm da).1 ∧
    (∀ h : String, h ∈ ((do_membership_update env ev).2.2).destinations ↔
      (h ∈ env.get_joined_hosts_for_room ev.room_id ∨ h = env.domain ev.target_user_id)) := by
  obtain ⟨pre, hpre0, hmain⟩ := ordinary_join_commit env ev da hjoin hauth hnodance
  have hdest : ∀ h : String, h ∈ ((do_membership_update env ev).2.2).destinations ↔
      (h ∈ env.get_joined_hosts_for_room ev.room_id ∨ h = env.domain ev.target_user_id) := by
    intro h
    simp [do_membership_update, hcontent, Membership.JOIN, Membership.INVITE]
  have hstore : Act.storeRoomMember ev.room_id ev.target_user_id ev.user_id Membership.JOIN ∈
      (membershipCommit env ev pre).1 := by
    have := membershipCommit_mem_store env ev pre
    rwa [hcontent] at this
  cases bm
  · rw [change_membership_no_broadcast, hmain]
    exact ⟨membershipCommit_countP_store env ev pre hpre0, hstore,
      membershipCommit_mem_fed env ev pre, hdest⟩
  · have hok : (change_membership_main env ev da).2 = .ok () := by rw [hmain]; rfl
    have htr : (change_membership env ev true da).1 =
        (change_membership_main env ev da).1 ++
          (inject_membership_msg env ev.room_id ev.user_id ev.target_user_id
            (ev.content.membership.getD "")).1 := by
      simp [change_membership, hok]
    rw [htr, hmain]
    obtain ⟨_, _, hbc⟩ := inject_membership_msg_counts env ev.room_id ev.user_id
      ev.target_user_id (ev.content.membership.getD "")
    refine ⟨?_, List.mem_append_left _ hstore,
      List.mem_append_left _ (membershipCommit_mem_fed env ev pre), hdest⟩
    rw [List.countP_append, membershipCommit_countP_store env ev pre hpre0, hbc]

/-- The exact trace and result of a JOIN transition when the dance condition
holds and the minimal room record is stored successfully. -/
theorem dance_main_eq (env : Env) (ev : Event) (da : Bool) (p : RoomMemberRow)
    (hjoin : ev.membership = some Membership.JOIN)
    (hauth : da = true → env.authOk ev = true)
    (hprev : env.get_room_member ev.target_user_id ev.room_id = some p)
    (hinv : p.membership = Membership.INVITE)
    (hremote : env.is_mine p.sender = false)
    (hnoroom : env.get_room ev.room_id = none)
    (hstore : env.storeRoomOk ev.room_id = true) :
    change_membership_main env ev da =
      ([Act.acquire ev.room_id] ++
        (if da then [Act.authCheck ev.room_id true] else []) ++
        [Act.getRoomMember ev.target_user_id ev.room_id, Act.getRoom ev.room_id,
         Act.release ev.room_id,
         Act.storeRoomCall ev.room_id p.sender false true,
         Act.federationSend (danceEvent env ev p.sender),
         Act.getStateForRoom (env.domain p.sender) ev.room_id], .ok ()) := by
  have hda : (da && !env.authOk ev) = false := by
    cases da
    · rfl
    · simp [hauth rfl]
  have hcond : (!env.is_mine p.sender && (env.get_room ev.room_id).isNone) = true := by
    simp [hremote, hnoroom]
  simp [change_membership_main, hjoin, hda, hprev, hinv, hcond, hstore]

/-- C1: a JOIN with prior membership `invite` from a remote inviter and no
local room record issues exactly one federation join-request event, destined
exactly to the inviter's host, performs exactly one remote-state fetch from
that host, and stores no local membership row. -/
theorem claim_C1_invite_join_dance (env : Env) (ev : Event) (bm da : Bool) (p : RoomMemberRow)
    (hjoin : ev.membership = some Membership.JOIN)
    (hauth : da = true → env.authOk ev = true)
    (hprev : env.get_room_member ev.target_user_id ev.room_id = some p)
    (hinv : p.membership = Membership.INVITE)
    (hremote : env.is_mine p.sender = false)
    (hnoroom : env.get_room ev.room_id = none)
    (hstore : env.storeRoomOk ev.room_id = true) :
    (change_membership env ev bm da).1.countP isInviteJoinSendAct = 1 ∧
    Act.federationSend (danceEvent env ev p.sender) ∈ (change_membership env ev bm da).1 ∧
    (danceEvent env ev p.sender).destinations = [env.domain p.sender] ∧
    (∀ e : Event, Act.federationSend e ∈ (change_membership env ev bm da).1 →
      e.etype = InviteJoinEventType → e = danceEvent env ev p.sender) ∧
    (change_membership env ev bm da).1.countP isGetStateAct = 1 ∧
    Act.getStateForRoom (env.domain p.sender) ev.room_id ∈ (change_membership env ev bm da).1 ∧
    (∀ hst r2 : String, Act.getStateForRoom hst r2 ∈ (change_membership env ev bm da).1 →
      hst = env.domain p.sender ∧ r2 = ev.room_id) ∧
    (change_membership env ev bm da).1.countP isStoreMemberAct = 0 := by
  have hmain := dance_main_eq env ev da p hjoin hauth hprev hinv hremote hnoroom hstore
  have hok : (change_membership_main env ev da).2 = .ok () := by rw [hmain]
  have htr : (change_membership env ev bm da).1 =
      (change_membership_main env ev da).1 ++
        (if bm then
          (inject_membership_msg env ev.room_id ev.user_id ev.target_user_id
            (ev.content.membership.getD "")).1
        else []) := by
    cases bm
    · simp [change_membership, hok]
    · simp [change_membership, hok]
  obtain ⟨hbc1, hbc2, hbc3⟩ := inject_membership_msg_counts env ev.room_id ev.user_id
    ev.target_user_id (ev.content.membership.getD "")
  set bc : List Act := (if bm then
      (inject_membership_msg env ev.room_id ev.user_id ev.target_user_id
        (ev.content.membership.getD "")).1
    else []) with hbcdef
  have hbc1' : bc.countP isInviteJoinSendAct = 0 := by cases bm <;> simp [hbcdef, hbc1]
  have hbc2' : bc.countP isGetStateAct = 0 := by cases bm <;> simp [hbcdef, hbc2]
  have hbc3' : bc.countP isStoreMemberAct = 0 := by cases bm <;> simp [hbcdef, hbc3]
  rw [htr, hmain]
  refine ⟨?_, ?_, rfl, ?_, ?_, ?_, ?_, ?_⟩
  · rw [List.countP_append, hbc1']
    cases da <;>
      simp [List.countP_cons, isInviteJoinSendAct, danceEvent, InviteJoinEventType]
  · cases da <;> simp
  · intro e he hetype
    rw [List.mem_append] at he
    rcases he with he | he
    · cases da <;> simp_all
    · exfalso
      have hz := List.countP_eq_zero.mp hbc1' _ he
      simp [isInviteJoinSendAct, hetype] at hz
  · rw [List.countP_append, hbc2']
    cases da <;> simp [List.countP_cons, isGetStateAct]
  · cases da <;> simp
  · intro hst r2 hmem
    rw [List.mem_append] at hmem
    rcases hmem with hmem | hmem
    · cases da <;> simp_all
    · exfalso
      have hz := List.countP_eq_zero.mp hbc2' _ hmem
      simp [isGetStateAct] at hz
  · rw [List.countP_append, hbc3']
    cases da <;> simp [List.countP_cons, isStoreMemberAct]

/-- C10: in the dance branch only the authorization check, the
previous-membership read and the dance-condition decision (the room-record
read) happen under the room lock; the minimal room record (private, creator
the remote inviter), the join-request federation send and the remote-state
fetch all happen after the release. -/
theorem claim_C10_dance_lock_scope (env : Env) (ev : Event) (da : Bool) (p : RoomMemberRow)
    (hjoin : ev.membership = some Membership.JOIN)
    (hauth : da = true → env.authOk ev = true)
    (hprev : env.get_room_member ev.target_user_id ev.room_id = some p)
    (hinv : p.membership = Membership.INVITE)
    (hremote : env.is_mine p.sender = false)
    (hnoroom : env.get_room ev.room_id = none)
    (hstore : env.storeRoomOk ev.room_id = true) :
    (change_membership env ev false da).1 =
      ([Act.acquire ev.room_id] ++
        (if da then [Act.authCheck ev.room_id true] else []) ++
        [Act.getRoomMember ev.target_user_id ev.room_id, Act.getRoom ev.room_id]) ++
      Act.release ev.room_id ::
      [Act.storeRoomCall ev.room_id p.sender false true,
       Act.federationSend (danceEvent env ev p.sender),
       Act.getStateForRoom (env.domain p.sender) ev.room_id] := by
  rw [change_membership_no_broadcast,
    dance_main_eq env ev da p hjoin hauth hprev hinv hremote hnoroom hstore]
  cases da <;> simp

/-- C2: the per-room lock serializes handler invocations — for one room, no
valid schedule of two invocations of `send_message`, `send_feedback` or
`change_membership` interleaves their critical sections (one suspends until
the other's release), while invocations targeting distinct rooms never block
each other (every interleaving is a valid schedule). -/
theorem claim_C2_per_room_serialization :
    (∀ (R : String) (xs ys : List Act) (zs : List (Bool × Act)),
      HandlerTrace R xs → HandlerTrace R ys → Interleaving xs ys zs → lockValid zs →
      NoCriticalInterleave R zs) ∧
    (∀ (R1 R2 : String) (xs ys : List Act) (zs : List (Bool × Act)), R1 ≠ R2 →
      HandlerTrace R1 xs → HandlerTrace R2 ys → Interleaving xs ys zs → lockValid zs) :=
  ⟨fun _ _ _ _ hx hy hI hv => room_lock_mutual_exclusion hx hy hI hv,
   fun _ _ _ _ _ hne hx hy hI => room_lock_independent hne hx hy hI⟩

/-! Concrete test data for the witnesses. -/

/-- A stored invite row whose sender lives on a remote server. -/
def rowInvite : RoomMemberRow := { membership := "invite", sender := "@alice:remote" }

/-- An environment in which the dance condition holds for every join. -/
def envDance : Env :=
  { hostname := "hs1"
    domain := fun _ => "remote"
    now := 7
    authOk := fun _ => true
    get_room_member := fun _ _ => some rowInvite
    get_room := fun _ => none
    get_joined_hosts_for_room := fun _ => ["hs1"]
    get_path_data := fun _ => some "data"
    persist_id := 1
    store_member_id := 2
    storeRoomOk := fun _ => true
    gen := fun n => if n = 4 then "room4" else "x" }

/-- An environment with no stored membership rows and an existing public
room. -/
def envFresh : Env :=
  { envDance with
    get_room_member := fun _ _ => none
    get_room := fun _ => some { is_public := true } }

/-- An environment whose store accepts only the fifth generated room id. -/
def envGen4 : Env :=
  { envFresh with storeRoomOk := fun s => s = "room4" }

/-- An environment whose store rejects every room id. -/
def envGenNone : Env :=
  { envFresh with storeRoomOk := fun _ => false }

/-- An environment with a private room and an invited reader. -/
def envInvite : Env :=
  { envDance with
    get_room := fun _ => some { is_public := false }
    get_room_member := fun _ _ => some { membership := "invite", sender := "@x:hs1" } }

/-- An environment with a private room and a departed reader. -/
def envLeave : Env :=
  { envInvite with
    get_room_member := fun _ _ => some { membership := "leave", sender := "@x:hs1" } }

/-- An environment that refuses every authorization check. -/
def envDeny : Env :=
  { envDance with authOk := fun _ => false }

/-- A well-formed join event for the test room. -/
def evJoin : Event :=
  { etype := RoomMemberEventType
    room_id := "!r1"
    user_id := "@bob:hs1"
    target_user_id := "@bob:hs1"
    membership := some Membership.JOIN
    content := { membership := some Membership.JOIN } }

/-- A message event in the test room. -/
def evMsg1 : Event := { etype := MessageEventType, room_id := "!r1", user_id := "@a:hs1" }

/-- A second message event in the test room. -/
def evMsg2 : Event := { etype := MessageEventType, room_id := "!r1", user_id := "@b:hs1" }

/-- A message event in a different room. -/
def evMsg3 : Event := { etype := MessageEventType, room_id := "!r2", user_id := "@c:hs1" }

/-- Trace of a `send_message` invocation targeting the test room. -/
def trA : List Act := (send_message envFresh evMsg1 false true).1

/-- Trace of a second `send_message` invocation targeting the test room. -/
def trB : List Act := (send_message envFresh evMsg2 false true).1

/-- Trace of a `send_feedback` invocation targeting the other room. -/
def trC : List Act := (send_feedback envFresh evMsg3 true).1

/-- Sequential schedule of the two same-room invocations. -/
def zsSame : List (Bool × Act) := trA.map ((true, ·)) ++ trB.map ((false, ·))

/-- Sequential schedule of the two cross-room invocations. -/
def zsCross : List (Bool × Act) := trA.map ((true, ·)) ++ trC.map ((false, ·))

/-! Witnesses. -/

theorem claim_C1_witness :
    envDance.get_room_member "@bob:hs1" "!r1" = some rowInvite ∧
    rowInvite.membership = Membership.INVITE ∧
    envDance.is_mine rowInvite.sender = false ∧
    envDance.get_room "!r1" = none ∧
    (change_membership envDance evJoin false true).1.countP isInviteJoinSendAct = 1 ∧
    (change_membership envDance evJoin false true).1.countP isGetStateAct = 1 ∧
    (change_membership envDance evJoin false true).1.countP isStoreMemberAct = 0 :=
  ⟨rfl, rfl, by decide, rfl,
    (claim_C1_invite_join_dance envDance evJoin false true rowInvite rfl (fun _ => rfl)
      rfl rfl (by decide) rfl rfl).1,
    (claim_C1_invite_join_dance envDance evJoin false true rowInvite rfl (fun _ => rfl)
      rfl rfl (by decide) rfl rfl).2.2.2.2.1,
    (claim_C1_invite_join_dance envDance evJoin false true rowInvite rfl (fun _ => rfl)
      rfl rfl (by decide) rfl rfl).2.2.2.2.2.2.2⟩

theorem claim_C2_witness :
    lockValid zsSame ∧ NoCriticalInterleave "!r1" zsSame ∧ lockValid zsCross :=
  ⟨by unfold lockValid; decide,
   claim_C2_per_room_serialization.1 "!r1" trA trB zsSame
     (Or.inl ⟨envFresh, evMsg1, false, true, rfl, rfl⟩)
     (Or.inl ⟨envFresh, evMsg2, false, true, rfl, rfl⟩)
     (interleaving_seq trA trB) (by unfold lockValid; decide),
   claim_C2_per_room_serialization.2 "!r1" "!r2" trA trC zsCross (by decide)
     (Or.inl ⟨envFresh, evMsg1, false, true, rfl, rfl⟩)
     (Or.inr (Or.inl ⟨envFresh, evMsg3, true, rfl, rfl⟩))
     (interleaving_seq trA trC)⟩

theorem claim_C3_witness :
    danceCond envFresh evJoin = false ∧
    (change_membership envFresh evJoin false true).1.countP isStoreMemberAct = 1 ∧
    Act.storeRoomMember "!r1" "@bob:hs1" "@bob:hs1" Membership.JOIN ∈
      (change_membership envFresh evJoin false true).1 ∧
    ("remote" ∈ ((do_membership_update envFresh evJoin).2.2).destinations ↔
      ("remote" ∈ envFresh.get_joined_hosts_for_room "!r1" ∨
        "remote" = envFresh.domain "@bob:hs1")) :=
  ⟨rfl,
   (claim_C3_ordinary_join envFresh evJoin false true rfl rfl (fun _ => rfl) rfl).1,
   (claim_C3_ordinary_join envFresh evJoin false true rfl rfl (fun _ => rfl) rfl).2.1,
   (claim_C3_ordinary_join envFresh evJoin false true rfl rfl (fun _ => rfl) rfl).2.2.2
     "remote"⟩

theorem claim_C4_witness :
    (create_room envGen4 "@u:hs1" none false).2 = .ok "room4" ∧
    (create_room envGenNone "@u:hs1" none false).2 =
      .error (.storeError 500 "Couldn\x27t generate a room ID.") :=
  ⟨(claim_C4_create_room_retry envGen4 "@u:hs1" false).1 4 (by decide)
      (by intro j hj; interval_cases j <;> decide) (by decide) rfl,
   ((claim_C4_create_room_retry envGenNone "@u:hs1" false).2
      (fun j _ => rfl)).1⟩

theorem claim_C5_witness :
    get_room_path_data envInvite "@u:hs1" "!r1" "topic" RoomTopicEventType [] ["join"] =
      .ok (some "data") ∧
    get_room_path_data envLeave "@u:hs1" "!r1" "topic" RoomTopicEventType [] ["join"] =
      .error (.roomError 403 "Member does not meet private room rules.") :=
  ⟨(claim_C5_topic_read_private_room envInvite "@u:hs1" "!r1" "topic" [] ["join"]
      { is_public := false } { membership := "invite", sender := "@x:hs1" }
      rfl rfl rfl).2.1 rfl,
   (claim_C5_topic_read_private_room envLeave "@u:hs1" "!r1" "topic" [] ["join"]
      { is_public := false } { membership := "leave", sender := "@x:hs1" }
      rfl rfl rfl).2.2 rfl⟩

theorem claim_C6_witness :
    get_room_path_data envDance "@u:hs1" "!r1" "p" "t" [] ["join"] =
      .error (.roomError 403 "Room does not exist.") ∧
    get_room_path_data envLeave "@u:hs1" "!r1" "p" "t" [] ["join"] =
      .error (.roomError 403 "Member does not meet private room rules.") :=
  ⟨(claim_C6_membership_rule_table envDance "@u:hs1" "!r1" "p" "t" [] ["join"]).1 rfl,
   ((claim_C6_membership_rule_table envLeave "@u:hs1" "!r1" "p" "t" [] ["join"]).2
      { is_public := false } rfl).2.2.1 rfl (by decide) (by decide)⟩

theorem claim_C7_witness :
    ((send_feedback envFresh evMsg3 true).1).findIdx? isReleaseAct = some 5 ∧
    ((send_feedback envFresh evMsg3 true).1).findIdx? isFedSendAct = some 6 ∧
    ((send_message envFresh evMsg1 false true).1).findIdx? isFedSendAct = some 5 ∧
    ((send_message envFresh evMsg1 false true).1).findIdx? isReleaseAct = some 7 :=
  ⟨(claim_C7_forwarding_lock_asymmetry envFresh evMsg1 evMsg3 rfl rfl).2.2.2.2.2.2.1,
   (claim_C7_forwarding_lock_asymmetry envFresh evMsg1 evMsg3 rfl rfl).2.2.2.2.2.2.2.1,
   (claim_C7_forwarding_lock_asymmetry envFresh evMsg1 evMsg3 rfl rfl).2.2.2.2.2.2.2.2.2.2.2.1,
   (claim_C7_forwarding_lock_asymmetry envFresh evMsg1 evMsg3 rfl rfl).2.2.2.2.2.2.2.2.2.2.2.2.2⟩

theorem claim_C8_witness :
    send_message envDeny evMsg1 false true =
      ([Act.stampEv "!r1", Act.acquire "!r1", Act.authCheck "!r1" false, Act.release "!r1"],
       .error .authError) ∧
    change_membership envDeny evJoin false true =
      ([Act.acquire "!r1", Act.authCheck "!r1" false, Act.release "!r1"],
       .error .authError) :=
  ⟨(claim_C8_auth_failure_aborts envDeny evMsg1).1 true rfl,
   (claim_C8_auth_failure_aborts envDeny evJoin).2 false rfl⟩

theorem claim_C9_witness :
    inject_membership_msg envFresh "!r1" "@a:hs1" "@b:hs1" "banana" =
      ([], .error (.roomError 500 "Unknown membership value banana")) ∧
    (inject_membership_msg envFresh "!r1" "@a:hs1" "@b:hs1" Membership.JOIN).2 = .ok () :=
  ⟨(claim_C9_broadcast_membership_msg envFresh "!r1" "@a:hs1" "@b:hs1" "banana").1
      (by decide),
   ((claim_C9_broadcast_membership_msg envFresh "!r1" "@a:hs1" "@b:hs1" Membership.JOIN).2.2.1
      ("@b:hs1 joined the room.") (by decide)).2⟩

theorem claim_C10_witness :
    (change_membership envDance evJoin false true).1 =
      ([Act.acquire "!r1"] ++ [Act.authCheck "!r1" true] ++
        [Act.getRoomMember "@bob:hs1" "!r1", Act.getRoom "!r1"]) ++
      Act.release "!r1" ::
      [Act.storeRoomCall "!r1" "@alice:remote" false true,
       Act.federationSend (danceEvent envDance evJoin "@alice:remote"),
       Act.getStateForRoom "remote" "!r1"] :=
  claim_C10_dance_lock_scope envDance evJoin true rowInvite rfl (fun _ => rfl)
    rfl rfl (by decide) rfl rfl

end Synapse
